import Mathlib

/-!
oktools: configuration loading, the plain listener and the freshness filter

A shallow embedding of `config.go` and `main.go`.

* Process termination through `log.Fatalln` is an `Except.error`.
* Reads of the environment (`os.Args`, `ioutil.ReadFile`, `time.Now`) are
  explicit arguments.
* A gin context is a record that handlers transform; the handler chain is run
  by `Context.Next`, which follows gin's index-driven loop.
-/

namespace Oktools

/-! ## config.go -/

/-- The `App` struct of config.go. -/
structure App where
  Mode : String
  LogFile : String
  deriving DecidableEq, Repr

/-- The anonymous `SSL` struct nested in `Http`. -/
structure SSL where
  Crt : String
  Key : String
  deriving DecidableEq, Repr

/-- The `Http` struct of config.go. -/
structure Http where
  Port : String
  SSL : SSL
  deriving DecidableEq, Repr

/-- The `Config` struct of config.go. -/
structure Config where
  App : App
  Http : Http
  deriving DecidableEq, Repr

/-- The zero value `&Config{}` that the package variable `config` starts with. -/
def Config.zero : Config :=
  { App := { Mode := "", LogFile := "" },
    Http := { Port := "", SSL := { Crt := "", Key := "" } } }

/-- The literal assigned to `config` in the `err != nil` branch of `init`;
fields the literal leaves out take their zero value. -/
def Config.fallback : Config :=
  { App := { Mode := "debug", LogFile := "oktools.log" },
    Http := { Port := "9175", SSL := { Crt := "", Key := "" } } }

/-- What `ioutil.ReadFile` hands back: the bytes read so far and the error, if any. -/
structure ReadResult where
  data : List UInt8
  err : Option String
  deriving DecidableEq, Repr

/-- The result of `ioutil.ReadFile` on a file that cannot be opened
(missing, or no permission): `nil` data and an error. -/
def ReadResult.openFailed (msg : String) : ReadResult :=
  { data := [], err := some msg }

/-- The strict YAML decoder `yaml.UnmarshalStrict(data, &config)`: it either
rewrites the target or reports an error. A dependency of the program, taken as
an argument of `init`. -/
abbrev Unmarshal := List UInt8 → Config → Except String Config

/-- A decoder instance for inputs that hold no document: the target is left as
it was. Inputs with content are not decoded by this instance. -/
def unmarshalNoDocument : Unmarshal
  | [], c => .ok c
  | _ :: _, _ => .error "yaml: input with content is not decoded by this instance"

/-- The path chosen in lines 31-37 of config.go: `os.Args[1]` when there are
exactly two arguments, and "conf.yaml" when that leaves the path empty. -/
def confPath (args : List String) : String :=
  let conf := if args.length = 2 then args.getD 1 "" else ""
  if conf = "" then "conf.yaml" else conf

/-- The function `init` of config.go. `args` is `os.Args`, `readFile` is
`ioutil.ReadFile`, `unmarshalStrict` is `yaml.UnmarshalStrict`. The result is
the final value of the package variable `config`, or the message of
`log.Fatalln`. -/
def init (args : List String) (readFile : String → ReadResult)
    (unmarshalStrict : Unmarshal) : Except String Config :=
  let conf := confPath args
  let r := readFile conf
  let config := if r.err ≠ none then Config.fallback else Config.zero
  match unmarshalStrict r.data config with
  | .error e => .error e
  | .ok c => .ok c

/-! ## net/http and gin: requests, response writers, contexts -/

/-- An HTTP header map: canonical key to its list of values. -/
abbrev Header := List (String × List String)

/-- Go `Header.Get`: the first value stored under the key, "" when there is none. -/
def Header.Get (h : Header) (key : String) : String :=
  match h.lookup key with
  | some (v :: _) => v
  | _ => ""

/-- Go `Header.Del`. -/
def Header.Del (h : Header) (key : String) : Header :=
  h.filter (fun kv => kv.1 != key)

/-- Go `Header.Set`: the key now holds exactly the one value. -/
def Header.Set (h : Header) (key value : String) : Header :=
  (key, [value]) :: Header.Del h key

/-- The fields of `http.Request` the program reads. `Path` is `URL.Path`, the
request target without its query string; `RequestURI` is the target as sent. -/
structure Request where
  Method : String
  RequestURI : String
  Path : String
  Header : Header
  deriving DecidableEq, Repr

/-- The response under construction: status code, header map and the body
written so far. -/
structure ResponseWriter where
  status : Nat
  header : Header
  body : String := ""
  deriving DecidableEq, Repr

/-- A gin context. `index` is gin's position in the handler chain; `invoked`
counts the runs of the instrumented downstream handler. -/
structure Context where
  Request : Request
  Writer : ResponseWriter
  index : Int
  invoked : Nat
  deriving DecidableEq, Repr

/-- The value of `abortIndex` in gin, `math.MaxInt8 >> 1`. -/
def abortIndex : Int := 63

/-- The method `c.Header(key, value)` of gin: an empty value deletes the key. -/
def Context.Header (c : Context) (key value : String) : Context :=
  if value = "" then
    { c with Writer := { c.Writer with header := Header.Del c.Writer.header key } }
  else
    { c with Writer := { c.Writer with header := Header.Set c.Writer.header key value } }

/-- The method `c.GetHeader(key)` of gin. -/
def Context.GetHeader (c : Context) (key : String) : String :=
  Header.Get c.Request.Header key

/-- The method `c.AbortWithStatus(code)` of gin: write the status, then set the
index to `abortIndex` so that no pending handler runs. -/
def Context.AbortWithStatus (c : Context) (code : Nat) : Context :=
  { c with Writer := { c.Writer with status := code }, index := abortIndex }

/-- The bytes of the UTF-8 encoding of a code point. -/
def utf8Bytes (n : Nat) : List Nat :=
  if n < 0x80 then [n]
  else if n < 0x800 then [0xC0 + n / 64, 0x80 + n % 64]
  else if n < 0x10000 then [0xE0 + n / 4096, 0x80 + n / 64 % 64, 0x80 + n % 64]
  else [0xF0 + n / 262144, 0x80 + n / 4096 % 64, 0x80 + n / 64 % 64, 0x80 + n % 64]

/-- A digit of `strconv.AppendInt(b, x, 16)`. -/
def hexDigit (n : Nat) : Char :=
  ['0', '1', '2', '3', '4', '5', '6', '7', '8', '9', 'a', 'b', 'c', 'd', 'e', 'f'].getD n '0'

/-- One byte of value 0x80 or more as net/http escapes it: a percent sign and
the byte in lower-case hexadecimal. -/
def pctByte (b : Nat) : List Char := ['%', hexDigit (b / 16), hexDigit (b % 16)]

/-- The loop of `hexEscapeNonASCII` over the text: an ASCII character is copied,
every byte of the UTF-8 encoding of any other character is escaped. -/
def hexEscapeChars : List Char → List Char
  | [] => []
  | ch :: rest =>
    if ch.toNat < 128 then ch :: hexEscapeChars rest
    else ((utf8Bytes ch.toNat).map pctByte).flatten ++ hexEscapeChars rest

/-- The function `hexEscapeNonASCII` of net/http. A Go string is a sequence of
bytes; here a character outside ASCII stands for the bytes of its UTF-8
encoding. -/
def hexEscapeNonASCII (s : String) : String := String.mk (hexEscapeChars s.toList)

/-- Whether a text holds ASCII characters only. -/
def isASCII (s : String) : Bool := s.toList.all (fun ch => decide (ch.toNat < 128))

/-- The replacements of `htmlReplacer` of net/http, for one character. -/
def htmlEscapeChar (ch : Char) : List Char :=
  if ch = '&' then "&amp;".toList
  else if ch = '<' then "&lt;".toList
  else if ch = '>' then "&gt;".toList
  else if ch = '"' then "&#34;".toList
  else if ch.toNat = 39 then "&#39;".toList
  else [ch]

/-- The function `htmlEscape` of net/http. -/
def htmlEscape (s : String) : String := String.mk ((s.toList.map htmlEscapeChar).flatten)

/-- The function `http.StatusText` on the codes that gin's `Redirect` accepts. -/
def StatusText (code : Nat) : String :=
  if code = 201 then "Created"
  else if code = 300 then "Multiple Choices"
  else if code = 301 then "Moved Permanently"
  else if code = 302 then "Found"
  else if code = 303 then "See Other"
  else if code = 304 then "Not Modified"
  else if code = 305 then "Use Proxy"
  else if code = 307 then "Temporary Redirect"
  else if code = 308 then "Permanent Redirect"
  else ""

/-- The method `c.Redirect(code, location)` of gin, which ends in
`http.Redirect(w, req, location, code)`, for a location that has a scheme (the
program's always starts with "https://"), which `http.Redirect` leaves as it
is: the `Location` header is `hexEscapeNonASCII(location)`; without a
`Content-Type` set before, a GET or HEAD request gets
`Content-Type: text/html; charset=utf-8`; the status is written; and, again
without an earlier `Content-Type`, a GET request gets the short HTML body. -/
def Context.Redirect (c : Context) (code : Nat) (location : String) : Context :=
  let hadCT := (c.Writer.header.lookup "Content-Type").isSome
  let h := Header.Set c.Writer.header "Location" (hexEscapeNonASCII location)
  let h := if !hadCT && (c.Request.Method == "GET" || c.Request.Method == "HEAD") then
      Header.Set h "Content-Type" "text/html; charset=utf-8"
    else h
  let b := if !hadCT && c.Request.Method == "GET" then
      c.Writer.body ++ "<a href=\"" ++ htmlEscape location ++ "\">" ++ StatusText code ++
        "</a>.\n\n"
    else c.Writer.body
  { c with Writer := { status := code, header := h, body := b } }

/-- The function `serveError` of gin for a response nothing has been written
to: the status, `Content-Type: text/plain` and the default message as body. -/
def serveError (c : Context) (code : Nat) (defaultMessage : String) : Context :=
  { c with Writer := { status := code,
                       header := Header.Set c.Writer.header "Content-Type" "text/plain",
                       body := c.Writer.body ++ defaultMessage } }

/-- The `globalOptionsHandler` of net/http, which answers `OPTIONS *` in place
of the server's handler: `Content-Length: 0`, the status left at 200. -/
def globalOptionsHandler (c : Context) : Context :=
  { c with Writer := { c.Writer with header := Header.Set c.Writer.header "Content-Length" "0" } }

/-- A gin handler. Its first argument is `c.Next` for the chain being run; a
result of `none` is a chain that did not finish. -/
abbrev HandlerFunc := (Context → Option Context) → Context → Option Context

/-! ## main.go: the plain listener -/

/-- The closure registered in `runNoTLS` at lines 75-82. `WebSocket` is the
handler of that name, defined elsewhere in the program. -/
def plainHandler (WebSocket : Context → Context) (c : Context) : Context :=
  let uri := c.Request.RequestURI
  if "/websocket" = uri then
    WebSocket c
  else
    c.Redirect 301 ("https://t.fuzhicode.com" ++ uri)

/-- One registered route: method, path pattern and handler. -/
structure Route where
  Method : String
  Pattern : String
  Handler : Context → Context

/-- The text of a gin pattern before its catch-all `*name` segment; `none` for
a pattern without one. -/
def catchAllStem : List Char → Option (List Char)
  | [] => none
  | ch :: rest =>
    if ch = '*' then some [] else (catchAllStem rest).map (fun stem => ch :: stem)

/-- Whether the second text starts with the first. -/
def hasStem : List Char → List Char → Bool
  | [], _ => true
  | _ :: _, [] => false
  | a :: as, b :: bs => a == b && hasStem as bs

/-- Whether a path matches a gin pattern of one of the two shapes the program
registers: a static path, which matches itself only, or a path ending in a
catch-all `*name` segment, which matches every path that extends the text
before the `*`. -/
def matchPattern (pattern path : String) : Bool :=
  match catchAllStem pattern.toList with
  | some stem => hasStem stem path.toList
  | none => pattern == path

/-- The routes of the engine built in `runNoTLS`: the single `e.GET("/*path", ...)`. -/
def plainRoutes (WebSocket : Context → Context) : List Route :=
  [{ Method := "GET", Pattern := "/*path", Handler := plainHandler WebSocket }]

/-- The dispatch of gin `handleHTTPRequest`. A method without any registered
route gets the no-route answer, 404 (`HandleMethodNotAllowed` is off by
default). Among the routes of the request method, the first whose pattern
matches the path handles the request. When the method has routes and none
matches, gin goes on to its path repair (`RedirectTrailingSlash`) and only then
to the no-route answer; that step is not embedded, it is the argument
`noMatch`. -/
def handleHTTPRequest (routes : List Route) (noMatch : Context → Context)
    (c : Context) : Context :=
  if routes.all (fun r => r.Method != c.Request.Method) then
    serveError c 404 "404 page not found"
  else
    match routes.find? (fun r => r.Method == c.Request.Method &&
        matchPattern r.Pattern c.Request.Path) with
    | some r => r.Handler c
    | none => noMatch c

/-- The plain listener of `runNoTLS` serving one request that net/http has
read: `serverHandler.ServeHTTP`, which answers `OPTIONS *` itself and hands
every other request to the gin engine. The Logger and Recovery handlers that
`gin.Default()` installs leave the response as it is and are left out. -/
def servePlain (WebSocket noMatch : Context → Context) (c : Context) : Context :=
  if c.Request.RequestURI = "*" ∧ c.Request.Method = "OPTIONS" then
    globalOptionsHandler c
  else
    handleHTTPRequest (plainRoutes WebSocket) noMatch c

/-! ## main.go: static assets and favicon -/

/-- The handler of `r.Any("/static/*filepath", ...)`, lines 97-101.
`staticServer` is `http.FileServer(http.FS(assets)).ServeHTTP`. -/
def staticHandler (staticServer : Context → Context) (c : Context) : Context :=
  staticServer (c.Header "Cache-Control" "max-age=3153600")

/-- The handler of `r.GET("/favicon.ico", ...)`, lines 103-106. `file` is
`c.File("./static/favicon.ico")`. -/
def faviconHandler (file : Context → Context) (c : Context) : Context :=
  file (c.Header "Cache-Control" "max-age=3153600")

/-- A fresh context for a request, as gin hands it to the chain: status 200,
no response header, no body, index -1. -/
def Context.new (r : Oktools.Request) : Context :=
  { Request := r, Writer := { status := 200, header := [] }, index := -1, invoked := 0 }

/-! ## time: rendering an instant with `http.TimeFormat` -/

/-- A `time.Time`: the instant as seconds and nanoseconds since the Unix epoch,
and the offset east of UTC, in seconds, that the value's location has at that
instant. `time.Now()` carries the local zone of the server. -/
structure Time where
  unixSec : Int
  nsec : Nat
  offset : Int
  deriving DecidableEq, Repr

/-- The method `t.UTC()`: the same instant with location UTC. -/
def Time.UTC (t : Time) : Time := { t with offset := 0 }

/-- The constant `http.TimeFormat`. -/
def TimeFormat : String := "Mon, 02 Jan 2006 15:04:05 GMT"

/-- Calendar and clock fields of a `Time`. -/
structure Civil where
  year : Int
  month : Nat
  day : Nat
  weekday : Nat
  hour : Nat
  minute : Nat
  second : Nat
  deriving DecidableEq, Repr

/-- The fields that `Format` prints: those of the instant shifted by the
offset of the value's location (proleptic Gregorian calendar; weekday 0 is
Sunday, and day 0 of the Unix era was a Thursday). -/
def Time.civil (t : Time) : Civil :=
  let abs := t.unixSec + t.offset
  let days := abs / 86400
  let rem := (abs % 86400).toNat
  let z := days + 719468
  let era := z / 146097
  let doe := (z - era * 146097).toNat
  let yoe := (doe - doe / 1460 + doe / 36524 - doe / 146096) / 365
  let doy := doe - (365 * yoe + yoe / 4 - yoe / 100)
  let mp := (5 * doy + 2) / 153
  let d := doy - (153 * mp + 2) / 5 + 1
  let m := if mp < 10 then mp + 3 else mp - 9
  let y := (yoe : Int) + era * 400 + (if m ≤ 2 then 1 else 0)
  { year := y, month := m, day := d, weekday := ((days + 4) % 7).toNat,
    hour := rem / 3600, minute := rem % 3600 / 60, second := rem % 60 }

/-- The table `shortDayNames` of package time. -/
def shortDayNames : List String := ["Sun", "Mon", "Tue", "Wed", "Thu", "Fri", "Sat"]

/-- The table `shortMonthNames` of package time. -/
def shortMonthNames : List String :=
  ["Jan", "Feb", "Mar", "Apr", "May", "Jun", "Jul", "Aug", "Sep", "Oct", "Nov", "Dec"]

/-- The helper `appendInt` of package time: decimal digits, zero-padded on the
left up to the width, after a minus sign for a negative number. -/
def appendInt (x : Int) (width : Nat) : String :=
  let digits := toString x.natAbs
  let padded := String.mk (List.replicate (width - digits.length) '0') ++ digits
  if x < 0 then "-" ++ padded else padded

/-- The layout interpreter of `Time.Format`, for the chunks that occur in
`http.TimeFormat`: "Mon", "02", "Jan", "2006", "15", "04", "05". Every other
character of the layout, the letters "GMT" included, is copied as it is. -/
def formatLayout (f : Civil) : List Char → String
  | 'M' :: 'o' :: 'n' :: rest => shortDayNames.getD f.weekday "" ++ formatLayout f rest
  | 'J' :: 'a' :: 'n' :: rest => shortMonthNames.getD (f.month - 1) "" ++ formatLayout f rest
  | '2' :: '0' :: '0' :: '6' :: rest => appendInt f.year 4 ++ formatLayout f rest
  | '0' :: '2' :: rest => appendInt f.day 2 ++ formatLayout f rest
  | '1' :: '5' :: rest => appendInt f.hour 2 ++ formatLayout f rest
  | '0' :: '4' :: rest => appendInt f.minute 2 ++ formatLayout f rest
  | '0' :: '5' :: rest => appendInt f.second 2 ++ formatLayout f rest
  | ch :: rest => String.singleton ch ++ formatLayout f rest
  | [] => ""

/-- The method `t.Format(layout)`. -/
def Time.Format (t : Time) (layout : String) : String :=
  formatLayout t.civil layout.toList

/-! ## float64 arithmetic and `Duration.Seconds` -/

/-- The number of binary digits of a natural number. -/
def bitLenAux : Nat → Nat → Nat
  | 0, _ => 0
  | fuel + 1, n => if n = 0 then 0 else bitLenAux fuel (n / 2) + 1

/-- The number of binary digits of a natural number (0 for 0). -/
def bitLen (n : Nat) : Nat := bitLenAux n n

/-- A finite float64 value, held exactly as sign and ratio `num / den`. -/
structure F64 where
  neg : Bool
  num : Nat
  den : Nat
  deriving DecidableEq, Repr

/-- The ratio `n / (d * 2^e)` as a pair of naturals. -/
def scaleBy (n d : Nat) (e : Int) : Nat × Nat :=
  if 0 ≤ e then (n, d * 2 ^ e.toNat) else (n * 2 ^ (-e).toNat, d)

/-- IEEE 754 rounding of the positive ratio `n / d` to binary64, to nearest
with ties to even: the exponent `e` is the one that puts the quotient
`n / (d * 2^e)` in `[2^52, 2^53)`, the quotient is rounded to an integer `m`,
and the result is `m * 2^e`. Normal range only (no underflow, no overflow). -/
def roundRatio (n d : Nat) : Nat × Nat :=
  if n = 0 ∨ d = 0 then (0, 1) else
  let e0 : Int := (bitLen n : Int) - (bitLen d : Int) - 53
  let e : Int := if 2 ^ 53 ≤ (scaleBy n d e0).1 / (scaleBy n d e0).2 then e0 + 1 else e0
  let s := scaleBy n d e
  let q := s.1 / s.2
  let r := s.1 % s.2
  let m := if s.2 < 2 * r ∨ (2 * r = s.2 ∧ q % 2 = 1) then q + 1 else q
  if 0 ≤ e then (m * 2 ^ e.toNat, 1) else (m, 2 ^ (-e).toNat)

/-- Conversion `float64(i)` of an int64. -/
def F64.ofInt (i : Int) : F64 :=
  let r := roundRatio i.natAbs 1
  { neg := decide (i < 0), num := r.1, den := r.2 }

/-- Division of two float64 values (nonzero divisor). -/
def F64.div (a b : F64) : F64 :=
  let r := roundRatio (a.num * b.den) (a.den * b.num)
  { neg := xor a.neg b.neg, num := r.1, den := r.2 }

/-- The exact signed numerator of a float64 value over a given common denominator. -/
def F64.signed (a : F64) (scale : Nat) : Int :=
  if a.neg then -((a.num * scale : Nat) : Int) else ((a.num * scale : Nat) : Int)

/-- Addition of two float64 values: the exact sum, rounded. -/
def F64.add (a b : F64) : F64 :=
  let s : Int := a.signed b.den + b.signed a.den
  let r := roundRatio s.natAbs (a.den * b.den)
  { neg := decide (s < 0), num := r.1, den := r.2 }

/-- Conversion `int64(f)` of a float64: the fraction is discarded. -/
def F64.toInt64 (a : F64) : Int :=
  if a.neg then -((a.num / a.den : Nat) : Int) else ((a.num / a.den : Nat) : Int)

/-- The constant `time.Second`, in nanoseconds. -/
def Second : Int := 1000000000

/-- The method `Duration.Seconds` of package time:
`sec := d / Second; nsec := d % Second; return float64(sec) + float64(nsec)/1e9`,
with Go's truncating integer division. -/
def Duration.Seconds (d : Int) : F64 :=
  let sec := Int.tdiv d Second
  let nsec := Int.tmod d Second
  F64.add (F64.ofInt sec) (F64.div (F64.ofInt nsec) (F64.ofInt 1000000000))

/-! ## main.go: the freshness filter -/

/-- The value of the `Cache-Control` header built at line 143:
`fmt.Sprintf("max-age=%d", int64(duration.Seconds()))`. -/
def maxAge (duration : Int) : String :=
  "max-age=" ++ toString (Duration.Seconds duration).toInt64

/-- The function `Cache` of main.go. `now` is the value of `time.Now()` at
construction. -/
def Cache (duration : Int) (now : Time) : HandlerFunc :=
  let lastModify := now
  let lastModifyFormat := lastModify.Format TimeFormat
  fun next c =>
    let c := c.Header "Cache-Control" (maxAge duration)
    let c := c.Header "Last-Modified" lastModifyFormat
    if c.Request.Method = "GET" ∧ c.GetHeader "If-Modified-Since" = lastModifyFormat then
      some (c.AbortWithStatus 304)
    else
      next c

/-- The loop of gin `c.Next()` after the first increment:
`for c.index < len(c.handlers) { c.handlers[c.index](c); c.index++ }`.
A handler receives `c.Next` for the same chain. Out of fuel, and at a negative
index, the chain does not finish. -/
def runChain : Nat → List HandlerFunc → Context → Option Context
  | 0, _, _ => none
  | fuel + 1, hs, c =>
    if c.index < 0 then none
    else if c.index < (hs.length : Int) then
      match hs.get? c.index.toNat with
      | some h =>
        (h (fun d => runChain fuel hs { d with index := d.index + 1 }) c).bind
          (fun c1 => runChain fuel hs { c1 with index := c1.index + 1 })
      | none => none
    else some c

/-- The method `c.Next()` of gin: `c.index++`, then the loop. -/
def Context.Next (fuel : Nat) (hs : List HandlerFunc) (c : Context) : Option Context :=
  runChain fuel hs { c with index := c.index + 1 }

/-- A downstream handler instrumented with a side-effect counter: it does
`body` to the response and counts its own run. It does not call `c.Next`. -/
def countedHandler (body : ResponseWriter → ResponseWriter) : HandlerFunc :=
  fun _ c => some { c with Writer := body c.Writer, invoked := c.invoked + 1 }

/-! ## Sample inputs -/

/-- The instant 2024-11-04 18:00:00 UTC as `time.Now()` reports it on a server
whose local zone is UTC. -/
def nowUTC : Time := { unixSec := 1730743200, nsec := 0, offset := 0 }

/-- The same instant as `time.Now()` reports it on a server whose local zone is
eight hours east of UTC. -/
def nowEast : Time := { unixSec := 1730743200, nsec := 0, offset := 28800 }

/-- A request with the given method, target (path and raw query) and headers. -/
def request (method path query : String) (h : Header) : Request :=
  { Method := method,
    RequestURI := if query = "" then path else path ++ "?" ++ query,
    Path := path,
    Header := h }

/-- A WebSocket handler that only counts its run. -/
def countingWebSocket (c : Context) : Context := { c with invoked := c.invoked + 1 }

/-! ## Auxiliary facts -/

theorem Header.get_set (h : Header) (key value : String) :
    Header.Get (Header.Set h key value) key = value := by
  simp [Header.Get, Header.Set, List.lookup]

theorem Header.lookup_set (h : Header) (key value : String) :
    (Header.Set h key value).lookup key = some [value] := by
  simp [Header.Set, List.lookup]

theorem Header.get_of_lookup_none (h : Header) (key : String)
    (habsent : h.lookup key = none) : Header.Get h key = "" := by
  simp [Header.Get, habsent]

theorem init_open_failed (args : List String) (readFile : String → ReadResult)
    (unmarshalStrict : Unmarshal)
    (hdata : (readFile (confPath args)).data = [])
    (herr : (readFile (confPath args)).err ≠ none)
    (hempty : ∀ c, unmarshalStrict [] c = .ok c) :
    init args readFile unmarshalStrict = .ok Config.fallback := by
  simp [init, hdata, herr, hempty]

theorem formatLayout_http (f : Civil) :
    formatLayout f TimeFormat.toList =
      shortDayNames.getD f.weekday "" ++ (String.singleton ',' ++ (String.singleton ' ' ++
        (appendInt f.day 2 ++ (String.singleton ' ' ++
        (shortMonthNames.getD (f.month - 1) "" ++ (String.singleton ' ' ++
        (appendInt f.year 4 ++ (String.singleton ' ' ++
        (appendInt f.hour 2 ++ (String.singleton ':' ++
        (appendInt f.minute 2 ++ (String.singleton ':' ++
        (appendInt f.second 2 ++ (String.singleton ' ' ++ (String.singleton 'G' ++
        (String.singleton 'M' ++ (String.singleton 'T' ++ ""))))))))))))))))) := by
  rfl

theorem Format_ne_empty (t : Time) : t.Format TimeFormat ≠ "" := by
  intro h
  have hlen := congrArg String.length h
  rw [Time.Format, formatLayout_http] at hlen
  simp [String.length_append, String.singleton] at hlen

theorem servePlain_get (WebSocket noMatch : Context → Context) (c : Context)
    (hget : c.Request.Method = "GET")
    (hpath : matchPattern "/*path" c.Request.Path = true) :
    servePlain WebSocket noMatch c = plainHandler WebSocket c := by
  have hopt : ¬ (c.Request.RequestURI = "*" ∧ c.Request.Method = "OPTIONS") := by
    rw [hget]; rintro ⟨_, h⟩; exact absurd h (by decide)
  simp [servePlain, handleHTTPRequest, plainRoutes, List.find?, hget, hpath]

theorem servePlain_other (WebSocket noMatch : Context → Context) (c : Context)
    (hother : c.Request.Method ≠ "GET")
    (hopt : ¬ (c.Request.Method = "OPTIONS" ∧ c.Request.RequestURI = "*")) :
    servePlain WebSocket noMatch c = serveError c 404 "404 page not found" := by
  have hopt2 : ¬ (c.Request.RequestURI = "*" ∧ c.Request.Method = "OPTIONS") :=
    fun h => hopt ⟨h.2, h.1⟩
  have h : ("GET" != c.Request.Method) = true := by
    simpa using fun h => hother h.symm
  simp only [servePlain, hopt2, if_false, handleHTTPRequest, plainRoutes, List.all_cons,
    List.all_nil, h, Bool.and_self, if_true]

theorem hexEscapeChars_of_ascii (l : List Char)
    (h : l.all (fun ch => decide (ch.toNat < 128)) = true) : hexEscapeChars l = l := by
  induction l with
  | nil => rfl
  | cons ch rest ih =>
    simp only [List.all_cons, Bool.and_eq_true, decide_eq_true_eq] at h
    simp only [hexEscapeChars, h.1, if_true, ih h.2]

theorem hexEscapeNonASCII_of_ascii (s : String) (h : isASCII s = true) :
    hexEscapeNonASCII s = s := by
  unfold hexEscapeNonASCII
  rw [hexEscapeChars_of_ascii _ h]
  rfl

theorem isASCII_append (a b : String) (ha : isASCII a = true) (hb : isASCII b = true) :
    isASCII (a ++ b) = true := by
  unfold isASCII at *
  simp only [String.toList, String.data_append, List.all_append, Bool.and_eq_true]
  exact ⟨ha, hb⟩

theorem Header.lookup_del_ne (h : Header) (key other : String) (hne : key ≠ other) :
    (Header.Del h other).lookup key = h.lookup key := by
  induction h with
  | nil => rfl
  | cons kv rest ih =>
    obtain ⟨k, v⟩ := kv
    by_cases hk : k = other
    · subst hk
      have hkey : (key == k) = false := by simpa using hne
      simp only [Header.Del, List.filter, bne_self_eq_false, List.lookup, hkey]
      exact ih
    · have hk2 : (k != other) = true := by simpa using hk
      simp only [Header.Del, List.filter, hk2, List.lookup]
      cases hkk : (key == k)
      · exact ih
      · rfl

theorem Header.lookup_set_ne (h : Header) (key other value : String) (hne : key ≠ other) :
    (Header.Set h other value).lookup key = h.lookup key := by
  have hkey : (key == other) = false := by simpa using hne
  simp only [Header.Set, List.lookup, hkey]
  exact Header.lookup_del_ne h key other hne

theorem Redirect_status (c : Context) (code : Nat) (location : String) :
    (c.Redirect code location).Writer.status = code := rfl

theorem Redirect_location (c : Context) (code : Nat) (location : String) :
    (c.Redirect code location).Writer.header.lookup "Location" =
      some [hexEscapeNonASCII location] := by
  simp only [Context.Redirect]
  split
  · rw [Header.lookup_set_ne _ _ _ _ (by decide)]
    exact Header.lookup_set _ _ _
  · exact Header.lookup_set _ _ _

theorem plainHandler_redirect (WebSocket : Context → Context) (c : Context)
    (huri : c.Request.RequestURI ≠ "/websocket") :
    plainHandler WebSocket c =
      c.Redirect 301 ("https://t.fuzhicode.com" ++ c.Request.RequestURI) := by
  have huri2 : ¬ "/websocket" = c.Request.RequestURI := fun h => huri h.symm
  simp [plainHandler, huri2]

@[simp]
theorem Context.Header_Request (c : Context) (key value : String) :
    (c.Header key value).Request = c.Request := by
  unfold Context.Header; split <;> rfl

@[simp]
theorem Context.Header_index (c : Context) (key value : String) :
    (c.Header key value).index = c.index := by
  unfold Context.Header; split <;> rfl

@[simp]
theorem Context.Header_invoked (c : Context) (key value : String) :
    (c.Header key value).invoked = c.invoked := by
  unfold Context.Header; split <;> rfl

@[simp]
theorem Context.Header_status (c : Context) (key value : String) :
    (c.Header key value).Writer.status = c.Writer.status := by
  unfold Context.Header; split <;> rfl

theorem runChain_done (fuel : Nat) (hs : List HandlerFunc) (c : Context)
    (h0 : 0 ≤ c.index) (hlen : (hs.length : Int) ≤ c.index) :
    runChain (fuel + 1) hs c = some c := by
  have h1 : ¬ c.index < 0 := by omega
  have h2 : ¬ c.index < (hs.length : Int) := by omega
  simp [runChain, h1, h2]

theorem runChain_step (fuel : Nat) (hs : List HandlerFunc) (c : Context) (h : HandlerFunc)
    (h0 : 0 ≤ c.index) (hlt : c.index < (hs.length : Int))
    (hget : hs.get? c.index.toNat = some h) :
    runChain (fuel + 1) hs c =
      (h (fun d => runChain fuel hs { d with index := d.index + 1 }) c).bind
        (fun c1 => runChain fuel hs { c1 with index := c1.index + 1 }) := by
  have h1 : ¬ c.index < 0 := by omega
  simp only [runChain, h1, hlt, if_true, if_false, hget]

theorem Cache_abort (duration : Int) (now : Time) (next : Context → Option Context)
    (c : Context) (hget : c.Request.Method = "GET")
    (hims : c.GetHeader "If-Modified-Since" = now.Format TimeFormat) :
    Cache duration now next c =
      some (((c.Header "Cache-Control" (maxAge duration)).Header "Last-Modified"
        (now.Format TimeFormat)).AbortWithStatus 304) := by
  have hims2 : Header.Get c.Request.Header "If-Modified-Since" = now.Format TimeFormat := hims
  simp [Cache, Context.GetHeader, Context.Header_Request, hget, hims2]

theorem Cache_pass (duration : Int) (now : Time) (next : Context → Option Context)
    (c : Context)
    (hnot : ¬ (c.Request.Method = "GET" ∧
      c.GetHeader "If-Modified-Since" = now.Format TimeFormat)) :
    Cache duration now next c =
      next ((c.Header "Cache-Control" (maxAge duration)).Header "Last-Modified"
        (now.Format TimeFormat)) := by
  have hnot2 : ¬ (c.Request.Method = "GET" ∧
      Header.Get c.Request.Header "If-Modified-Since" = now.Format TimeFormat) := hnot
  simp only [Cache, Context.GetHeader, Context.Header_Request, hnot2, if_false]

/-! ## The freshness filter -/

/-- C1. For every duration and construction instant, a GET request whose
`If-Modified-Since` value is string-equal to the captured `Last-Modified`
string makes the chain `[Cache, handler]` finish aborted with status 304, both
headers set, and the downstream handler run zero times. -/
theorem Cache_not_modified (duration : Int) (now : Time)
    (body : ResponseWriter → ResponseWriter) (c : Context) (fuel : Nat)
    (hfuel : 2 ≤ fuel) (hidx : c.index = -1)
    (hget : c.Request.Method = "GET")
    (hims : c.GetHeader "If-Modified-Since" = now.Format TimeFormat) :
    ∃ r, Context.Next fuel [Cache duration now, countedHandler body] c = some r ∧
      r.Writer.status = 304 ∧
      r.invoked = c.invoked ∧
      abortIndex ≤ r.index ∧
      r.Writer.header =
        ((c.Header "Cache-Control" (maxAge duration)).Header "Last-Modified"
          (now.Format TimeFormat)).Writer.header := by
  obtain ⟨n, rfl⟩ : ∃ n, fuel = n + 2 := ⟨fuel - 2, by omega⟩
  refine ⟨{ ((({ c with index := c.index + 1 } : Context).Header "Cache-Control"
      (maxAge duration)).Header "Last-Modified"
      (now.Format TimeFormat)).AbortWithStatus 304 with index := abortIndex + 1 }, ?_, ?_, ?_, ?_, ?_⟩
  · rw [Context.Next, runChain_step (n + 1) _ _ (Cache duration now) (by simp [hidx])
      (by simp [hidx]) (by simp [hidx])]
    rw [Cache_abort duration now _ { c with index := c.index + 1 } hget hims]
    rw [Option.bind, runChain_done] <;> simp [Context.AbortWithStatus, abortIndex]
  · rfl
  · simp [Context.AbortWithStatus, Context.Header_invoked]
  · simp [abortIndex]
  · simp only [Context.AbortWithStatus, Context.Header]; split <;> split <;> rfl

/-- C2. For every duration and construction instant, a request that is not a
GET with `If-Modified-Since` string-equal to the captured `Last-Modified`
string (another method, the header absent, or a different string) makes the
chain `[Cache, handler]` finish with the downstream handler run exactly once on
the response that carries the two headers and the status the filter received;
the filter does not abort and writes no status. -/
theorem Cache_passes_on (duration : Int) (now : Time)
    (body : ResponseWriter → ResponseWriter) (c : Context) (fuel : Nat)
    (hfuel : 3 ≤ fuel) (hidx : c.index = -1)
    (hnot : c.Request.Method ≠ "GET" ∨
      c.Request.Header.lookup "If-Modified-Since" = none ∨
      c.GetHeader "If-Modified-Since" ≠ now.Format TimeFormat) :
    Context.Next fuel [Cache duration now, countedHandler body] c =
      some { Request := c.Request,
             Writer := body ((c.Header "Cache-Control" (maxAge duration)).Header
               "Last-Modified" (now.Format TimeFormat)).Writer,
             index := 3,
             invoked := c.invoked + 1 } ∧
    ((c.Header "Cache-Control" (maxAge duration)).Header "Last-Modified"
      (now.Format TimeFormat)).Writer.status = c.Writer.status := by
  obtain ⟨n, rfl⟩ : ∃ n, fuel = n + 3 := ⟨fuel - 3, by omega⟩
  have hcond : ¬ (c.Request.Method = "GET" ∧
      c.GetHeader "If-Modified-Since" = now.Format TimeFormat) := by
    rintro ⟨hm, hh⟩
    rcases hnot with h | h | h
    · exact h hm
    · have hempty := Header.get_of_lookup_none _ _ h
      exact Format_ne_empty now (by rw [← hh]; exact hempty)
    · exact h hh
  refine ⟨?_, by simp [Context.Header_status]⟩
  rw [Context.Next, runChain_step (n + 2) _ _ (Cache duration now) (by simp [hidx])
    (by simp [hidx]) (by simp [hidx])]
  rw [Cache_pass duration now _ { c with index := c.index + 1 } hcond]
  rw [runChain_step (n + 1) _ _ (countedHandler body) (by simp [hidx])
    (by simp [hidx]) (by simp [hidx])]
  simp only [countedHandler, Option.bind]
  rw [runChain_done n _ _ (by simp [hidx]) (by simp [hidx])]
  simp only [Option.bind]
  rw [runChain_done (n + 1) _ _ (by simp [hidx]) (by simp [hidx])]
  simp only [hidx, Context.Header_Request, Context.Header_index, Context.Header_invoked,
    Option.some.injEq, Context.mk.injEq, true_and]
  refine ⟨?_, by norm_num⟩
  simp only [Context.Header]
  split_ifs <;> rfl

/-- Witness of C1: a GET request repeating the captured date, on a server in UTC. -/
theorem Cache_not_modified_witness :
    ∃ r, Context.Next 2 [Cache 1800000000000 nowUTC, countedHandler id]
        (Context.new (request "GET" "/hash" ""
          [("If-Modified-Since", ["Mon, 04 Nov 2024 18:00:00 GMT"])])) = some r ∧
      r.Writer.status = 304 ∧
      r.invoked = 0 ∧
      abortIndex ≤ r.index ∧
      r.Writer.header =
        (((Context.new (request "GET" "/hash" ""
            [("If-Modified-Since", ["Mon, 04 Nov 2024 18:00:00 GMT"])])).Header
          "Cache-Control" (maxAge 1800000000000)).Header "Last-Modified"
          (nowUTC.Format TimeFormat)).Writer.header :=
  Cache_not_modified 1800000000000 nowUTC id
    (Context.new (request "GET" "/hash" ""
      [("If-Modified-Since", ["Mon, 04 Nov 2024 18:00:00 GMT"])]))
    2 (by decide) (by decide) (by decide) (by decide)

/-- Witness of C2: a GET request whose date differs from the captured one in
its last digit. -/
theorem Cache_passes_on_witness :
    Context.Next 3 [Cache 1800000000000 nowUTC, countedHandler id]
        (Context.new (request "GET" "/hash" ""
          [("If-Modified-Since", ["Mon, 04 Nov 2024 18:00:01 GMT"])])) =
      some { Request := request "GET" "/hash" ""
               [("If-Modified-Since", ["Mon, 04 Nov 2024 18:00:01 GMT"])],
             Writer := { status := 200,
                         header := [("Last-Modified", ["Mon, 04 Nov 2024 18:00:00 GMT"]),
                                    ("Cache-Control", ["max-age=1800"])] },
             index := 3,
             invoked := 1 } := by
  have h := (Cache_passes_on 1800000000000 nowUTC id
    (Context.new (request "GET" "/hash" ""
      [("If-Modified-Since", ["Mon, 04 Nov 2024 18:00:01 GMT"])]))
    3 (by decide) (by decide) (Or.inr (Or.inr (by decide)))).1
  rw [h]
  decide

set_option maxRecDepth 100000 in
/-- C3, evaluated where it fails. For the duration of 16777216999999999 ns the
quotient by one second is 16777216, while `int64(duration.Seconds())` is
16777217: the float64 sum `16777216 + 0.999999999` rounds up to the next
integer, and the filter sends `Cache-Control: max-age=16777217`. -/
theorem Cache_max_age_rounds_up :
    (16777216999999999 : Int) / 1000000000 = 16777216 ∧
    (Duration.Seconds 16777216999999999).toInt64 = 16777217 ∧
    (Context.Next 3 [Cache 16777216999999999 nowUTC, countedHandler id]
      (Context.new (request "GET" "/hash" "" []))).map
        (fun r => Header.Get r.Writer.header "Cache-Control") =
      some "max-age=16777217" := by
  decide

/-- C10, evaluated where it fails. On a server whose local zone is eight
hours east of UTC, a filter constructed at 2024-11-04 18:00:00 UTC sends
`Last-Modified: Tue, 05 Nov 2024 02:00:00 GMT`, the local clock reading
labelled GMT; the same instant rendered in UTC is
"Mon, 04 Nov 2024 18:00:00 GMT". -/
theorem Cache_last_modified_local_clock :
    (Context.Next 3 [Cache 1800000000000 nowEast, countedHandler id]
      (Context.new (request "GET" "/hash" "" []))).map
        (fun r => Header.Get r.Writer.header "Last-Modified") =
      some "Tue, 05 Nov 2024 02:00:00 GMT" ∧
    nowEast.UTC.Format TimeFormat = "Mon, 04 Nov 2024 18:00:00 GMT" := by
  decide

/-! ## The plain listener -/

/-- C4 as stated fails: the GET request `/café` is answered 301 with
`Location: https://t.fuzhicode.com/caf%c3%a9`, the bytes outside ASCII
escaped, which is not "https://t.fuzhicode.com" followed by the request URI. -/
theorem plain_location_escaped :
    (request "GET" "/café" "" []).RequestURI = "/café" ∧
    (servePlain countingWebSocket id
      (Context.new (request "GET" "/café" "" []))).Writer.status = 301 ∧
    (servePlain countingWebSocket id
      (Context.new (request "GET" "/café" "" []))).Writer.header.lookup "Location" =
      some ["https://t.fuzhicode.com/caf%c3%a9"] ∧
    (servePlain countingWebSocket id
      (Context.new (request "GET" "/café" "" []))).Writer.header.lookup "Location" ≠
      some ["https://t.fuzhicode.com" ++ (request "GET" "/café" "" []).RequestURI] := by
  decide

/-- C4, amended. For every GET request whose request URI `u` is not
"/websocket", holds ASCII characters only, and whose path the route
`GET /*path` matches (it starts with "/"), the plain listener answers 301 with
the single `Location` value "https://t.fuzhicode.com" followed by `u` as
received, query string included, whatever the WebSocket handler is. -/
theorem plain_redirects (WebSocket noMatch : Context → Context) (c : Context)
    (hget : c.Request.Method = "GET")
    (huri : c.Request.RequestURI ≠ "/websocket")
    (hascii : isASCII c.Request.RequestURI = true)
    (hpath : matchPattern "/*path" c.Request.Path = true) :
    (servePlain WebSocket noMatch c).Writer.status = 301 ∧
    (servePlain WebSocket noMatch c).Writer.header.lookup "Location" =
      some ["https://t.fuzhicode.com" ++ c.Request.RequestURI] := by
  rw [servePlain_get WebSocket noMatch c hget hpath, plainHandler_redirect WebSocket c huri]
  refine ⟨Redirect_status _ _ _, ?_⟩
  rw [Redirect_location,
    hexEscapeNonASCII_of_ascii _ (isASCII_append _ _ (by decide) hascii)]

/-- Witness of C4, amended: the request `GET /anything?x=1`. -/
theorem plain_redirects_witness :
    (servePlain countingWebSocket id
      (Context.new (request "GET" "/anything" "x=1" []))).Writer.status = 301 ∧
    (servePlain countingWebSocket id
      (Context.new (request "GET" "/anything" "x=1" []))).Writer.header.lookup "Location" =
      some ["https://t.fuzhicode.com/anything?x=1"] :=
  plain_redirects countingWebSocket id
    (Context.new (request "GET" "/anything" "x=1" []))
    (by decide) (by decide) (by decide) (by decide)

/-- C5 as stated fails: the GET request `/websocket?x=1` has the path
"/websocket", yet the plain listener answers it 301 with
`Location: https://t.fuzhicode.com/websocket?x=1` and the WebSocket handler
does not run. -/
theorem plain_websocket_with_query_redirects :
    (request "GET" "/websocket" "x=1" []).Path = "/websocket" ∧
    (servePlain countingWebSocket id
      (Context.new (request "GET" "/websocket" "x=1" []))).Writer.status = 301 ∧
    (servePlain countingWebSocket id
      (Context.new (request "GET" "/websocket" "x=1" []))).Writer.header.lookup "Location" =
      some ["https://t.fuzhicode.com/websocket?x=1"] ∧
    (servePlain countingWebSocket id
      (Context.new (request "GET" "/websocket" "x=1" []))).invoked = 0 := by
  decide

/-- C5, amended. For every GET request whose request URI is exactly
"/websocket" (the path "/websocket" with no query string), the plain listener
hands the request to the WebSocket handler and issues no redirect: the answer
is the WebSocket handler's. -/
theorem plain_websocket_delegates (WebSocket noMatch : Context → Context) (c : Context)
    (hget : c.Request.Method = "GET")
    (hpath : c.Request.Path = "/websocket")
    (huri : c.Request.RequestURI = "/websocket") :
    servePlain WebSocket noMatch c = WebSocket c ∧ plainHandler WebSocket c = WebSocket c := by
  have hh : plainHandler WebSocket c = WebSocket c := by
    simp [plainHandler, huri]
  have hm : matchPattern "/*path" c.Request.Path = true := by
    rw [hpath]; decide
  exact ⟨by rw [servePlain_get WebSocket noMatch c hget hm, hh], hh⟩

/-- Witness of C5, amended: the request `GET /websocket`. -/
theorem plain_websocket_delegates_witness :
    servePlain countingWebSocket id (Context.new (request "GET" "/websocket" "" [])) =
      countingWebSocket (Context.new (request "GET" "/websocket" "" [])) ∧
    plainHandler countingWebSocket (Context.new (request "GET" "/websocket" "" [])) =
      countingWebSocket (Context.new (request "GET" "/websocket" "" [])) :=
  plain_websocket_delegates countingWebSocket id
    (Context.new (request "GET" "/websocket" "" [])) (by decide) (by decide) (by decide)

/-- C6 as stated fails: the request `POST /anything?x=1` is answered 404 by
the plain listener, with no `Location` header. -/
theorem plain_post_not_found :
    (servePlain countingWebSocket id
      (Context.new (request "POST" "/anything" "x=1" []))).Writer.status = 404 ∧
    (servePlain countingWebSocket id
      (Context.new (request "POST" "/anything" "x=1" []))).Writer.header.lookup "Location" =
      none := by
  decide

/-- C6, amended. For every request to the plain listener other than
`GET /websocket`: a GET request whose path the route `GET /*path` matches and
whose request URI holds ASCII characters only is answered 301 with `Location`
"https://t.fuzhicode.com" followed by the request URI, path and query as
received; a request of any other method (POST, PUT, DELETE, HEAD), `OPTIONS *`
apart, matches no route and is answered 404 with `Content-Type: text/plain`
and no redirect. -/
theorem plain_by_method (WebSocket noMatch : Context → Context) (c : Context)
    (hother : c.Request.Method ≠ "GET" ∨ c.Request.RequestURI ≠ "/websocket") :
    (c.Request.Method = "GET" → matchPattern "/*path" c.Request.Path = true →
      isASCII c.Request.RequestURI = true →
      (servePlain WebSocket noMatch c).Writer.status = 301 ∧
      (servePlain WebSocket noMatch c).Writer.header.lookup "Location" =
        some ["https://t.fuzhicode.com" ++ c.Request.RequestURI]) ∧
    (c.Request.Method ≠ "GET" →
      ¬ (c.Request.Method = "OPTIONS" ∧ c.Request.RequestURI = "*") →
      (servePlain WebSocket noMatch c).Writer.status = 404 ∧
      (servePlain WebSocket noMatch c).Writer.header =
        Header.Set c.Writer.header "Content-Type" "text/plain" ∧
      (servePlain WebSocket noMatch c).Writer.header.lookup "Location" =
        c.Writer.header.lookup "Location") := by
  refine ⟨fun hget hpath hascii => ?_, fun hm hopt => ?_⟩
  · have huri : c.Request.RequestURI ≠ "/websocket" := by
      rcases hother with h | h
      · exact absurd hget h
      · exact h
    rw [servePlain_get WebSocket noMatch c hget hpath, plainHandler_redirect WebSocket c huri]
    refine ⟨Redirect_status _ _ _, ?_⟩
    rw [Redirect_location,
      hexEscapeNonASCII_of_ascii _ (isASCII_append _ _ (by decide) hascii)]
  · rw [servePlain_other WebSocket noMatch c hm hopt]
    exact ⟨rfl, rfl, Header.lookup_set_ne _ _ _ _ (by decide)⟩

/-- Witness of C6, amended: the request `HEAD /anything?x=1`. -/
theorem plain_by_method_witness :
    (servePlain countingWebSocket id
      (Context.new (request "HEAD" "/anything" "x=1" []))).Writer.status = 404 ∧
    (servePlain countingWebSocket id
      (Context.new (request "HEAD" "/anything" "x=1" []))).Writer.header =
      [("Content-Type", ["text/plain"])] ∧
    (servePlain countingWebSocket id
      (Context.new (request "HEAD" "/anything" "x=1" []))).Writer.header.lookup "Location" =
      none :=
  (plain_by_method countingWebSocket id (Context.new (request "HEAD" "/anything" "x=1" []))
    (Or.inl (by decide))).2 (by decide) (by decide)

/-! ## Static assets and favicon -/

/-- C7, evaluated where it fails. For every request, the static asset handler
and the favicon handler pass on a response whose `Cache-Control` value is
"max-age=3153600"; one year of 365 days is 31536000 seconds, ten times that. -/
theorem static_max_age_value (serve : Context → Context) (c : Context) :
    staticHandler serve c = serve (c.Header "Cache-Control" "max-age=3153600") ∧
    faviconHandler serve c = serve (c.Header "Cache-Control" "max-age=3153600") ∧
    Header.Get (c.Header "Cache-Control" "max-age=3153600").Writer.header "Cache-Control" =
      "max-age=3153600" ∧
    "max-age=3153600" ≠ "max-age=" ++ toString (365 * 24 * 60 * 60) ∧
    365 * 24 * 60 * 60 = 10 * 3153600 := by
  refine ⟨rfl, rfl, ?_, by decide, by decide⟩
  have hne : ¬ "max-age=3153600" = "" := by decide
  simp only [Context.Header, hne, if_false]
  exact Header.get_set _ _ _

/-! ## Configuration loading -/

/-- C8. When the file to load (the single command-line argument, or
"conf.yaml") does not exist, so that `ReadFile` reports an error with no data
and the strict decoder, which leaves its target alone on empty data, receives
empty data, `init` ends without a fatal error and the configuration is
Mode "debug", LogFile "oktools.log", Port "9175", Crt "" and Key "". -/
theorem init_missing_file_defaults (args : List String) (readFile : String → ReadResult)
    (unmarshalStrict : Unmarshal)
    (hdata : (readFile (confPath args)).data = [])
    (herr : (readFile (confPath args)).err ≠ none)
    (hempty : ∀ c, unmarshalStrict [] c = .ok c) :
    init args readFile unmarshalStrict =
      .ok { App := { Mode := "debug", LogFile := "oktools.log" },
            Http := { Port := "9175", SSL := { Crt := "", Key := "" } } } :=
  init_open_failed args readFile unmarshalStrict hdata herr hempty

/-- Witness of C8: no argument and no file "conf.yaml". -/
theorem init_missing_file_defaults_witness :
    confPath ["oktools"] = "conf.yaml" ∧
    init ["oktools"] (fun _ => ReadResult.openFailed "no such file or directory")
        unmarshalNoDocument =
      .ok { App := { Mode := "debug", LogFile := "oktools.log" },
            Http := { Port := "9175", SSL := { Crt := "", Key := "" } } } :=
  ⟨by decide,
   init_missing_file_defaults ["oktools"]
    (fun _ => ReadResult.openFailed "no such file or directory") unmarshalNoDocument
    rfl (by decide) (fun _ => rfl)⟩

/-- C9 as stated fails: with the explicit path "missing.yaml" that cannot be
opened, `init` does not end in a fatal error; it yields the default
configuration. -/
theorem init_explicit_path_not_fatal :
    confPath ["oktools", "missing.yaml"] = "missing.yaml" ∧
    init ["oktools", "missing.yaml"]
        (fun _ => ReadResult.openFailed "open missing.yaml: no such file or directory")
        unmarshalNoDocument =
      .ok Config.fallback :=
  ⟨by decide, by rfl⟩

/-- C9, amended. For every invocation with an explicit configuration file path
as the command-line argument, when that file cannot be opened (`ReadFile`
reports an error and no data), `init` does not end in a fatal error: it yields
the default configuration, given a strict decoder that leaves its target alone
on empty data. -/
theorem init_explicit_path_defaults (prog path : String) (readFile : String → ReadResult)
    (unmarshalStrict : Unmarshal)
    (hpath : path ≠ "")
    (hdata : (readFile path).data = [])
    (herr : (readFile path).err ≠ none)
    (hempty : ∀ c, unmarshalStrict [] c = .ok c) :
    confPath [prog, path] = path ∧
    init [prog, path] readFile unmarshalStrict = .ok Config.fallback := by
  have hconf : confPath [prog, path] = path := by
    simp [confPath, hpath]
  refine ⟨hconf, ?_⟩
  apply init_open_failed
  · rw [hconf]; exact hdata
  · rw [hconf]; exact herr
  · exact hempty

/-- Witness of C9, amended: the explicit path "prod.yaml" on a file system
where only "conf.yaml" can be opened. -/
theorem init_explicit_path_defaults_witness :
    confPath ["oktools", "prod.yaml"] = "prod.yaml" ∧
    init ["oktools", "prod.yaml"]
        (fun p => if p = "conf.yaml" then { data := [], err := none }
          else ReadResult.openFailed "permission denied")
        unmarshalNoDocument =
      .ok Config.fallback :=
  init_explicit_path_defaults "oktools" "prod.yaml"
    (fun p => if p = "conf.yaml" then { data := [], err := none }
      else ReadResult.openFailed "permission denied")
    unmarshalNoDocument (by decide) (by decide) (by decide) (fun _ => rfl)

end Oktools
